import Mathlib

/-!
Verification of the Clip-Finder video-search backend (`backend/main.py`).

The retrieval-and-ranking core of the `/search` endpoint is embedded
shallowly:

* embedding vectors are idealized as `List ℝ` (Python lists of floats);
* timestamps are idealized as `ℚ` (decimal JSON numbers);
* `round(x, 1)` is modelled by `round (10 * x) : ℤ` (the 100 ms bucket id);
* the two embedding providers (`get_text_embeddings` and
  `encode_text_with_openclip`) are parameters returning `Option (List ℝ)`,
  `none` standing for a raised exception, which the endpoint catches and
  turns into an empty candidate list for that mode;
* the session store (`CACHE_DIR / f"{video_id}_data.json"`) is a map
  `String → Option SessionData`; the data file is written only when
  processing reaches `completed`, so `none` covers both a missing and an
  incomplete session, and its absence raises HTTP 404;
* Python `list.sort(key=..., reverse=True)` is a stable descending sort,
  modelled by `List.mergeSort` with the reversed comparator.
-/

namespace ClipFinder

/-! ### Vector arithmetic (`cosine_similarity`, lines 370-382) -/

/-- `np.dot` on two float lists (equal length in all real call sites). -/
def dotp (a b : List ℝ) : ℝ := (List.zipWith (fun x y => x * y) a b).sum

/-- `np.linalg.norm`, the Euclidean norm of a float list. -/
noncomputable def norm2 (a : List ℝ) : ℝ := Real.sqrt (dotp a a)

/-- `cosine_similarity` from the source: normalized dot product with a
defensive `0.0` when either vector has zero norm. -/
noncomputable def cosine_similarity (a b : List ℝ) : ℝ :=
  if norm2 a = 0 ∨ norm2 b = 0 then 0 else dotp a b / (norm2 a * norm2 b)

/-! ### Strings: Python `str.lower` and the `in` substring test -/

/-- Python `str.lower`, character-wise (ASCII case fold suffices here). -/
def lower (s : String) : List Char := s.data.map Char.toLower

/-- Whether `q` is an initial run of `t` (helper for the substring test). -/
def isPrefOf : List Char → List Char → Bool
  | [], _ => true
  | _ :: _, [] => false
  | a :: as, b :: bs => a == b && isPrefOf as bs

/-- Python `q in t` on strings: `q` occurs contiguously inside `t`. -/
def substrB (q : List Char) : List Char → Bool
  | [] => q.isEmpty
  | b :: bs => isPrefOf q (b :: bs) || substrB q bs

/-- The keyword bonus of the text scorer: `0.3` when the lowercased query
is a literal substring of the lowercased segment text, else `0.0`. -/
noncomputable def keyword_bonus (q t : String) : ℝ :=
  if substrB (lower q) (lower t) then 0.3 else 0

/-! ### Data model (the per-video `_data.json` payload) -/

/-- A transcript segment (`data["segments"][i]`); `stop` renders the JSON
field `end`, which is a reserved word in Lean. -/
structure Segment where
  start : ℚ
  stop : ℚ
  text : String

/-- A sampled frame with its visual embedding (`data["visual_data"][i]`). -/
structure Frame where
  timestamp : ℚ
  frame_number : ℕ
  embedding : List ℝ

/-- The session payload the search endpoint reads from disk. -/
structure SessionData where
  segments : List Segment
  text_embeddings : List (List ℝ)
  visual_data : List Frame

/-- One entry of the returned `results` array. -/
structure Result where
  timestamp : ℚ
  text : String
  score : ℝ
  search_type : String
  frame_number : Option ℕ
  stop : ℚ

/-- The request body of `POST /search` (`SearchQuery` model, lines 63-67). -/
structure SearchQuery where
  video_id : String
  query : String
  search_type : String := "hybrid"
  top_k : ℕ := 10

/-- The two query-embedding providers; `none` models a raised exception. -/
structure Providers where
  get_text_embedding : String → Option (List ℝ)
  encode_text_with_openclip : String → Option (List ℝ)

/-! ### Assembling result rows -/

/-- Timestamp formatted to one decimal, as in `f"{timestamp:.1f}"`. -/
def oneDec (ts : ℚ) : ℚ := (round (10 * ts) : ℚ) / 10

/-- The synthesized text used when no segment covers a frame timestamp:
`f"Visual content at {timestamp:.1f}s"`. -/
def placeholder_text (ts : ℚ) : String :=
  "Visual content at " ++ toString (oneDec ts) ++ "s"

/-- The loop that scans `data["segments"]` in order and breaks at the
first segment whose `[start, end]` interval contains the timestamp. -/
def textAt (segs : List Segment) (ts : ℚ) : String :=
  match segs with
  | [] => placeholder_text ts
  | s :: rest => if s.start ≤ ts ∧ ts ≤ s.stop then s.text else textAt rest ts

/-! ### Mode-specific candidate generation (lines 807-989) -/

/-- Text-mode candidate scan (lines 816-842): pair segments with their
embeddings by index (indices past either list are skipped), score by
cosine similarity plus keyword bonus, keep combined scores above `0.3`,
and cap the stored score at `1.0`. -/
noncomputable def text_candidates (qe : List ℝ) (q : String) (d : SessionData) :
    List Result :=
  (d.segments.zip d.text_embeddings).filterMap fun p =>
    let combined_score := cosine_similarity qe p.2 + keyword_bonus q p.1.text
    if 0.3 < combined_score then
      some { timestamp := p.1.start, text := p.1.text,
             score := min combined_score 1, search_type := "text",
             frame_number := none, stop := p.1.stop }
    else none

/-- Comparator for the visual `visual_matches.sort(key=similarity,
reverse=True)`: a stable descending sort on the similarity component. -/
noncomputable def simLE (x y : Frame × ℝ) : Bool := decide (y.2 ≤ x.2)

/-- All frames scored by raw cosine similarity and sorted descending
(lines 864-881); no threshold is applied. -/
noncomputable def visual_matches (qve : List ℝ) (d : SessionData) :
    List (Frame × ℝ) :=
  (d.visual_data.map fun vd => (vd, cosine_similarity qve vd.embedding)).mergeSort
    simLE

/-- Turn a scored frame into a result row (lines 888-906): the displayed
text is the first covering segment's text, or the placeholder. -/
noncomputable def visual_result (d : SessionData) (p : Frame × ℝ) : Result :=
  { timestamp := p.1.timestamp, text := textAt d.segments p.1.timestamp,
    score := p.2, search_type := "visual",
    frame_number := some p.1.frame_number, stop := p.1.timestamp + 1 }

/-- Pure visual mode: rank all frames and truncate to `top_k * 2`
candidates (line 884) before assembling rows. -/
noncomputable def visual_candidates (top_k : ℕ) (qve : List ℝ)
    (d : SessionData) : List Result :=
  ((visual_matches qve d).take (top_k * 2)).map (visual_result d)

/-- Hybrid text scan (lines 931-950): same filter as text mode, but the
stored score is the capped combined score weighted by `0.5`. -/
noncomputable def hybrid_text_candidates (qe : List ℝ) (q : String)
    (d : SessionData) : List Result :=
  (d.segments.zip d.text_embeddings).filterMap fun p =>
    let combined_score := cosine_similarity qe p.2 + keyword_bonus q p.1.text
    if 0.3 < combined_score then
      some { timestamp := p.1.start, text := p.1.text,
             score := min combined_score 1 * 0.5, search_type := "text",
             frame_number := none, stop := p.1.stop }
    else none

/-- Hybrid visual scan (lines 960-983): frames in session order, kept
only when the raw similarity exceeds `0.2`, score weighted by `0.5`. -/
noncomputable def hybrid_visual_candidates (qve : List ℝ) (d : SessionData) :
    List Result :=
  d.visual_data.filterMap fun vd =>
    let similarity := cosine_similarity qve vd.embedding
    if 0.2 < similarity then
      some { timestamp := vd.timestamp, text := textAt d.segments vd.timestamp,
             score := similarity * 0.5, search_type := "visual",
             frame_number := some vd.frame_number, stop := vd.timestamp + 1 }
    else none

/-- Mode dispatch of the endpoint: `"text"`, `"visual"`, and an `else`
branch that runs hybrid for every other `search_type` string.  A `none`
from a provider is the caught exception: that mode contributes `[]`. -/
noncomputable def mode_candidates (P : Providers) (q : SearchQuery)
    (d : SessionData) : List Result :=
  if q.search_type = "text" then
    match P.get_text_embedding q.query with
    | none => []
    | some qe => text_candidates qe q.query d
  else if q.search_type = "visual" then
    match P.encode_text_with_openclip q.query with
    | none => []
    | some qve => visual_candidates q.top_k qve d
  else
    (match P.get_text_embedding q.query with
     | none => []
     | some qe => hybrid_text_candidates qe q.query d) ++
    (match P.encode_text_with_openclip q.query with
     | none => []
     | some qve => hybrid_visual_candidates qve d)

/-! ### Ranking and deduplication (lines 991-1005) -/

/-- The 100 ms dedup bucket: `round(timestamp, 1)` scaled to an integer. -/
def bucket (ts : ℚ) : ℤ := round (10 * ts)

/-- Comparator for `results.sort(key=score, reverse=True)`. -/
noncomputable def scoreLE (a b : Result) : Bool := decide (b.score ≤ a.score)

/-- Stable descending sort by score. -/
noncomputable def score_desc (rs : List Result) : List Result :=
  rs.mergeSort scoreLE

/-- Lookup in the `seen_timestamps` dict, modelled as an assoc list whose
most recent binding shadows older ones. -/
def lookupB (ts : ℤ) : List (ℤ × ℝ) → Option ℝ
  | [] => none
  | p :: rest => if p.1 = ts then some p.2 else lookupB ts rest

/-- The dedup loop (lines 995-1003): walk the sorted candidates, keep a
bucket's first entry, and on seeing a strictly higher score for an
already-seen bucket drop the old entry and append the new one. -/
noncomputable def dedupGo : List Result → List (ℤ × ℝ) → List Result → List Result
  | [], _, acc => acc
  | r :: rest, seen, acc =>
    match lookupB (bucket r.timestamp) seen with
    | none => dedupGo rest ((bucket r.timestamp, r.score) :: seen) (acc ++ [r])
    | some s =>
      if s < r.score then
        dedupGo rest ((bucket r.timestamp, r.score) :: seen)
          ((acc.filter fun ur => bucket ur.timestamp != bucket r.timestamp) ++ [r])
      else
        dedupGo rest seen acc

/-- `unique_results`: sort by score descending, dedup by bucket, and
re-sort by score descending (lines 991-1005). -/
noncomputable def rank_results (rs : List Result) : List Result :=
  score_desc (dedupGo (score_desc rs) [] [])

/-- Specification-level reformulation of the dedup loop on an input that
is already sorted by descending score: keep each bucket's first entry. -/
def keepFirst : List Result → List ℤ → List Result
  | [], _ => []
  | r :: rest, bs =>
    if bucket r.timestamp ∈ bs then keepFirst rest bs
    else r :: keepFirst rest (bucket r.timestamp :: bs)

/-! ### The endpoint -/

/-- The only client-facing error of `/search`: HTTP 404
"Video not processed yet", raised when the data file is absent. -/
inductive SearchError where
  | notReady

/-- The response body of `POST /search`. -/
structure SearchResponse where
  results : List Result
  total_matches : ℕ
  search_type : String

/-- `search_video` (lines 794-1024) without the history side effect:
load the session data (404 when absent), produce mode candidates, rank
and dedup them, and return the top `top_k` rows. -/
noncomputable def search_video (P : Providers)
    (store : String → Option SessionData) (q : SearchQuery) :
    Except SearchError SearchResponse :=
  match store q.video_id with
  | none => .error .notReady
  | some d =>
    let unique_results := rank_results (mode_candidates P q d)
    .ok { results := unique_results.take q.top_k,
          total_matches := unique_results.length,
          search_type := q.search_type }

/-- One record of the per-video `search_history` log (lines 1011-1017). -/
structure HistoryEntry where
  query : String
  search_type : String
  time : ℕ
  results_count : ℕ
  top_score : ℝ

/-- The mutable server state touched by `/search`: the session store
(read only) and the search-history log (append only). -/
structure ServerState where
  sessions : String → Option SessionData
  search_history : String → List HistoryEntry

/-- `unique_results[0]["score"] if unique_results else 0`. -/
noncomputable def top_score_of (rs : List Result) : ℝ :=
  match rs with
  | [] => 0
  | r :: _ => r.score

/-- `search_video` with its side effect: on success, append one history
entry (with the wall-clock `now`) for the queried video. -/
noncomputable def search_step (P : Providers) (st : ServerState) (now : ℕ)
    (q : SearchQuery) : Except SearchError (SearchResponse × ServerState) :=
  match st.sessions q.video_id with
  | none => .error .notReady
  | some d =>
    let unique_results := rank_results (mode_candidates P q d)
    let entry : HistoryEntry :=
      { query := q.query, search_type := q.search_type, time := now,
        results_count := unique_results.length,
        top_score := top_score_of unique_results }
    .ok ({ results := unique_results.take q.top_k,
           total_matches := unique_results.length,
           search_type := q.search_type },
         { sessions := st.sessions,
           search_history := fun v =>
             if v = q.video_id then st.search_history v ++ [entry]
             else st.search_history v })

/-! ### Concrete data for witnesses -/

/-- An empty completed session: no segments, no embeddings, no frames. -/
def emptySession : SessionData := ⟨[], [], []⟩

/-- A store holding exactly the empty completed session under `"v"`. -/
def store0 : String → Option SessionData :=
  fun id => if id = "v" then some emptySession else none

/-- Providers that always succeed with the unit vector `[1]`. -/
def providers0 : Providers := ⟨fun _ => some [1], fun _ => some [1]⟩

/-- Providers whose every call raises. -/
def providersFail : Providers := ⟨fun _ => none, fun _ => none⟩

/-- The transcript segment of the spec's text-mode scenario. -/
def segCats : Segment := ⟨0, 5, "cats are great"⟩

/-- A one-segment session whose only text embedding is `[1, 0]`. -/
def sessionCats : SessionData := ⟨[segCats], [[1, 0]], []⟩

/-- A frame at 0 s whose embedding has cosine similarity `0.8` with the
query embedding `[5, 0]`. -/
def frameA : Frame := ⟨0, 0, [4, 3]⟩

/-- A frame at 1 s orthogonal to the query embedding `[5, 0]`. -/
def frameB : Frame := ⟨1, 1, [0, 5]⟩

/-- A frame at 2 s with cosine similarity `0.6` against `[5, 0]`. -/
def frameC : Frame := ⟨2, 2, [3, 4]⟩

/-- A session with one segment and three frames. -/
def sessionFrames : SessionData := ⟨[segCats], [[1, 0]], [frameA, frameB, frameC]⟩

/-- A server state holding the empty completed session and no history. -/
def state0 : ServerState := ⟨store0, fun _ => []⟩

/-! ### Lemmas about the vector arithmetic -/

@[simp] theorem dotp_nil (b : List ℝ) : dotp [] b = 0 := rfl

@[simp] theorem dotp_nil_right (a : List ℝ) : dotp a [] = 0 := by
  cases a <;> rfl

@[simp] theorem dotp_cons (x y : ℝ) (xs ys : List ℝ) :
    dotp (x :: xs) (y :: ys) = x * y + dotp xs ys := rfl

theorem dotp_self_nonneg (a : List ℝ) : 0 ≤ dotp a a := by
  induction a with
  | nil => simp
  | cons x xs ih => simpa using add_nonneg (mul_self_nonneg x) ih

theorem dotp_self_pos {v : List ℝ} (h : ∃ x ∈ v, x ≠ 0) : 0 < dotp v v := by
  induction v with
  | nil => simp at h
  | cons y ys ih =>
    rcases h with ⟨x, hx, hx0⟩
    rcases List.mem_cons.mp hx with rfl | hmem
    · simpa using add_pos_of_pos_of_nonneg (mul_self_pos.mpr hx0) (dotp_self_nonneg ys)
    · simpa using add_pos_of_nonneg_of_pos (mul_self_nonneg y) (ih ⟨x, hmem, hx0⟩)

theorem dotp_eq_sum_range (a b : List ℝ) :
    dotp a b = ∑ i ∈ Finset.range (min a.length b.length),
      a.getD i 0 * b.getD i 0 := by
  induction a generalizing b with
  | nil => simp
  | cons x xs ih =>
    cases b with
    | nil => simp
    | cons y ys =>
      rw [dotp_cons, ih ys]
      rw [List.length_cons, List.length_cons, Nat.succ_min_succ,
        Finset.sum_range_succ']
      simp [add_comm]

theorem norm2_nonneg (a : List ℝ) : 0 ≤ norm2 a := Real.sqrt_nonneg _

theorem norm2_eq_zero_iff (a : List ℝ) : norm2 a = 0 ↔ dotp a a = 0 := by
  rw [norm2, Real.sqrt_eq_zero (dotp_self_nonneg a)]

theorem sum_sq_le_dotp_self (a : List ℝ) (n : ℕ) (hn : n ≤ a.length) :
    ∑ i ∈ Finset.range n, a.getD i 0 ^ 2 ≤ dotp a a := by
  have h := dotp_eq_sum_range a a
  rw [min_self] at h
  rw [h]
  simp_rw [← sq]
  exact Finset.sum_le_sum_of_subset_of_nonneg (Finset.range_subset.mpr hn)
    (fun i _ _ => sq_nonneg _)

theorem dotp_sq_le (a b : List ℝ) :
    dotp a b ^ 2 ≤ dotp a a * dotp b b := by
  rw [dotp_eq_sum_range a b]
  refine le_trans (Finset.sum_mul_sq_le_sq_mul_sq _ _ _) ?_
  exact mul_le_mul
    (sum_sq_le_dotp_self a _ (min_le_left _ _))
    (sum_sq_le_dotp_self b _ (min_le_right _ _))
    (Finset.sum_nonneg fun i _ => sq_nonneg _)
    (dotp_self_nonneg a)

theorem abs_dotp_le (a b : List ℝ) : |dotp a b| ≤ norm2 a * norm2 b := by
  rw [← Real.sqrt_sq_eq_abs, norm2, norm2,
    ← Real.sqrt_mul (dotp_self_nonneg a)]
  exact Real.sqrt_le_sqrt (dotp_sq_le a b)

theorem abs_cosine_le_one (a b : List ℝ) : |cosine_similarity a b| ≤ 1 := by
  unfold cosine_similarity
  split
  · simp
  · rename_i h
    push_neg at h
    have ha : 0 < norm2 a := lt_of_le_of_ne (norm2_nonneg a) (Ne.symm h.1)
    have hb : 0 < norm2 b := lt_of_le_of_ne (norm2_nonneg b) (Ne.symm h.2)
    rw [abs_div, abs_of_pos (mul_pos ha hb),
      div_le_one (mul_pos ha hb)]
    exact abs_dotp_le a b

theorem cosine_bounds (a b : List ℝ) :
    -1 ≤ cosine_similarity a b ∧ cosine_similarity a b ≤ 1 :=
  abs_le.mp (abs_cosine_le_one a b)

theorem cosine_zero_of_norm {a b : List ℝ}
    (h : norm2 a = 0 ∨ norm2 b = 0) : cosine_similarity a b = 0 := by
  rw [cosine_similarity, if_pos h]

theorem cosine_self {v : List ℝ} (h : ∃ x ∈ v, x ≠ 0) :
    cosine_similarity v v = 1 := by
  have hpos : 0 < dotp v v := dotp_self_pos h
  have hn : norm2 v ≠ 0 := by
    rw [norm2]
    exact ne_of_gt (Real.sqrt_pos.mpr hpos)
  rw [cosine_similarity, if_neg (by tauto), norm2,
    Real.mul_self_sqrt (le_of_lt hpos), div_self (ne_of_gt hpos)]

/-! ### Lemmas about sorting, dedup and ranking -/

theorem scoreLE_trans : ∀ a b c : Result, scoreLE a b → scoreLE b c → scoreLE a c := by
  intro a b c hab hbc
  simp only [scoreLE, decide_eq_true_eq] at *
  exact le_trans hbc hab

theorem scoreLE_total : ∀ a b : Result, scoreLE a b || scoreLE b a := by
  intro a b
  simp only [scoreLE, Bool.or_eq_true, decide_eq_true_eq]
  exact le_total b.score a.score

theorem score_desc_sorted (rs : List Result) :
    (score_desc rs).Pairwise fun a b => b.score ≤ a.score :=
  (List.sorted_mergeSort scoreLE_trans scoreLE_total rs).imp
    fun h => by simpa [scoreLE] using h

theorem mem_score_desc {r : Result} {rs : List Result} :
    r ∈ score_desc rs ↔ r ∈ rs := by
  rw [score_desc]
  exact List.mem_mergeSort

theorem lookupB_eq_none {ts : ℤ} {seen : List (ℤ × ℝ)} :
    lookupB ts seen = none ↔ ts ∉ seen.map Prod.fst := by
  induction seen with
  | nil => simp [lookupB]
  | cons p rest ih =>
    by_cases h : p.1 = ts
    · simp [lookupB, h]
    · have hts : ts ≠ p.1 := fun hh => h hh.symm
      simp [lookupB, h, ih, hts]

theorem lookupB_mem_pair {ts : ℤ} {s : ℝ} {seen : List (ℤ × ℝ)}
    (h : lookupB ts seen = some s) : (ts, s) ∈ seen := by
  induction seen with
  | nil => simp [lookupB] at h
  | cons p rest ih =>
    rw [lookupB] at h
    by_cases hp : p.1 = ts
    · rw [if_pos hp] at h
      refine List.mem_cons.mpr (Or.inl ?_)
      cases p
      cases h
      simp_all
    · rw [if_neg hp] at h
      exact List.mem_cons.mpr (Or.inr (ih h))

theorem lookupB_mem {ts : ℤ} {s : ℝ} {seen : List (ℤ × ℝ)}
    (h : lookupB ts seen = some s) : ts ∈ seen.map Prod.fst :=
  List.mem_map_of_mem Prod.fst (lookupB_mem_pair h)

theorem dedupGo_mem : ∀ (l : List Result) (seen : List (ℤ × ℝ))
    (acc : List Result) (r : Result),
    r ∈ dedupGo l seen acc → r ∈ acc ∨ r ∈ l := by
  intro l
  induction l with
  | nil =>
    intro seen acc r h
    rw [dedupGo] at h
    exact Or.inl h
  | cons x rest ih =>
    intro seen acc r h
    rw [dedupGo] at h
    split at h
    · rcases ih _ _ r h with hacc | hrest
      · rcases List.mem_append.mp hacc with h1 | h2
        · exact Or.inl h1
        · exact Or.inr (List.mem_cons.mpr (Or.inl (List.mem_singleton.mp h2)))
      · exact Or.inr (List.mem_cons.mpr (Or.inr hrest))
    · split at h
      · rcases ih _ _ r h with hacc | hrest
        · rcases List.mem_append.mp hacc with h1 | h2
          · exact Or.inl (List.mem_of_mem_filter h1)
          · exact Or.inr (List.mem_cons.mpr (Or.inl (List.mem_singleton.mp h2)))
        · exact Or.inr (List.mem_cons.mpr (Or.inr hrest))
      · rcases ih _ _ r h with hacc | hrest
        · exact Or.inl hacc
        · exact Or.inr (List.mem_cons.mpr (Or.inr hrest))

theorem keepFirst_sublist : ∀ (l : List Result) (bs : List ℤ),
    List.Sublist (keepFirst l bs) l := by
  intro l
  induction l with
  | nil => intro bs; simp [keepFirst]
  | cons r rest ih =>
    intro bs
    rw [keepFirst]
    by_cases h : bucket r.timestamp ∈ bs
    · rw [if_pos h]
      exact (ih bs).cons r
    · rw [if_neg h]
      exact (ih _).cons₂ r

theorem keepFirst_bucket_not_mem : ∀ (l : List Result) (bs : List ℤ)
    (r : Result), r ∈ keepFirst l bs → bucket r.timestamp ∉ bs := by
  intro l
  induction l with
  | nil =>
    intro bs r h
    simp [keepFirst] at h
  | cons x rest ih =>
    intro bs r h
    rw [keepFirst] at h
    by_cases hx : bucket x.timestamp ∈ bs
    · rw [if_pos hx] at h
      exact ih bs r h
    · rw [if_neg hx] at h
      rcases List.mem_cons.mp h with rfl | hmem
      · exact hx
      · intro hc
        exact ih _ r hmem (List.mem_cons.mpr (Or.inr hc))

theorem keepFirst_bucket_pairwise : ∀ (l : List Result) (bs : List ℤ),
    (keepFirst l bs).Pairwise
      fun a b => bucket a.timestamp ≠ bucket b.timestamp := by
  intro l
  induction l with
  | nil => intro bs; simp [keepFirst]
  | cons x rest ih =>
    intro bs
    rw [keepFirst]
    by_cases hx : bucket x.timestamp ∈ bs
    · rw [if_pos hx]
      exact ih bs
    · rw [if_neg hx]
      refine List.Pairwise.cons ?_ (ih _)
      intro b hb hc
      exact keepFirst_bucket_not_mem rest _ b hb
        (by rw [← hc]; exact List.mem_cons_self _ _)

theorem keepFirst_max : ∀ (l : List Result) (bs : List ℤ),
    (l.Pairwise fun a b => b.score ≤ a.score) →
    ∀ r ∈ keepFirst l bs, ∀ r' ∈ l,
      bucket r'.timestamp = bucket r.timestamp → r'.score ≤ r.score := by
  intro l
  induction l with
  | nil =>
    intro bs _ r h
    simp [keepFirst] at h
  | cons x rest ih =>
    intro bs hp r hr r' hr' hb
    rw [keepFirst] at hr
    rcases List.pairwise_cons.mp hp with ⟨hx, hrest⟩
    by_cases hxm : bucket x.timestamp ∈ bs
    · rw [if_pos hxm] at hr
      rcases List.mem_cons.mp hr' with rfl | hr'm
      · exact absurd (hb ▸ hxm) (keepFirst_bucket_not_mem rest bs r hr)
      · exact ih bs hrest r hr r' hr'm hb
    · rw [if_neg hxm] at hr
      rcases List.mem_cons.mp hr with rfl | hrm
      · rcases List.mem_cons.mp hr' with rfl | hr'm
        · exact le_refl _
        · exact hx r' hr'm
      · rcases List.mem_cons.mp hr' with rfl | hr'm
        · exact absurd
            (show bucket r.timestamp ∈ bucket r'.timestamp :: bs by
              rw [hb]; exact List.mem_cons_self _ _)
            (keepFirst_bucket_not_mem rest _ r hrm)
        · exact ih _ hrest r hrm r' hr'm hb

theorem dedupGo_eq_keepFirst :
    ∀ (l : List Result) (seen : List (ℤ × ℝ)) (acc : List Result),
    (l.Pairwise fun a b => b.score ≤ a.score) →
    (∀ p ∈ seen, ∀ r ∈ l, r.score ≤ p.2) →
    dedupGo l seen acc = acc ++ keepFirst l (seen.map Prod.fst) := by
  intro l
  induction l with
  | nil =>
    intro seen acc _ _
    simp [dedupGo, keepFirst]
  | cons x rest ih =>
    intro seen acc hp hinv
    rcases List.pairwise_cons.mp hp with ⟨hx, hrest⟩
    rw [dedupGo, keepFirst]
    split
    · rename_i hl
      have hnm : bucket x.timestamp ∉ seen.map Prod.fst := lookupB_eq_none.mp hl
      rw [if_neg hnm]
      rw [ih ((bucket x.timestamp, x.score) :: seen) (acc ++ [x]) hrest ?_]
      · simp
      · intro p hp' r hr
        rcases List.mem_cons.mp hp' with rfl | hpm
        · exact hx r hr
        · exact hinv p hpm r (List.mem_cons.mpr (Or.inr hr))
    · rename_i s hl
      have hm : bucket x.timestamp ∈ seen.map Prod.fst := lookupB_mem hl
      rw [if_pos hm]
      have hle : x.score ≤ s :=
        hinv _ (lookupB_mem_pair hl) x (List.mem_cons_self _ _)
      rw [if_neg (not_lt.mpr hle)]
      exact ih seen acc hrest
        fun p hp' r hr => hinv p hp' r (List.mem_cons.mpr (Or.inr hr))

theorem rank_results_eq (rs : List Result) :
    rank_results rs = keepFirst (score_desc rs) [] := by
  rw [rank_results]
  rw [dedupGo_eq_keepFirst (score_desc rs) [] [] (score_desc_sorted rs)
    (by simp)]
  simp only [List.map_nil, List.nil_append]
  have hpw : (keepFirst (score_desc rs) []).Pairwise fun a b => scoreLE a b :=
    List.Pairwise.sublist (keepFirst_sublist _ _)
      (List.sorted_mergeSort scoreLE_trans scoreLE_total rs)
  rw [score_desc]
  exact List.mergeSort_of_sorted hpw

theorem mem_rank_results {rs : List Result} {r : Result}
    (h : r ∈ rank_results rs) : r ∈ rs := by
  rw [rank_results_eq] at h
  exact mem_score_desc.mp ((keepFirst_sublist _ _).mem h)

theorem rank_results_sorted (rs : List Result) :
    (rank_results rs).Pairwise fun a b => b.score ≤ a.score := by
  rw [rank_results_eq]
  exact List.Pairwise.sublist (keepFirst_sublist _ _) (score_desc_sorted rs)

theorem rank_results_bucket_pairwise (rs : List Result) :
    (rank_results rs).Pairwise
      fun a b => bucket a.timestamp ≠ bucket b.timestamp := by
  rw [rank_results_eq]
  exact keepFirst_bucket_pairwise _ _

theorem rank_results_max {rs : List Result} {r : Result}
    (h : r ∈ rank_results rs) :
    ∀ r' ∈ rs, bucket r'.timestamp = bucket r.timestamp →
      r'.score ≤ r.score := by
  rw [rank_results_eq] at h
  intro r' hr' hb
  exact keepFirst_max (score_desc rs) [] (score_desc_sorted rs) r h r'
    (mem_score_desc.mpr hr') hb

theorem rank_results_sublist_sorted (rs : List Result) :
    List.Sublist (rank_results rs) (score_desc rs) := by
  rw [rank_results_eq]
  exact keepFirst_sublist _ _

/-! ### Lemmas about candidate generation and the endpoint -/

theorem score_desc_nil : score_desc [] = [] := by
  rw [score_desc]
  exact List.mergeSort_nil

theorem rank_results_nil : rank_results [] = [] := by
  rw [rank_results_eq, score_desc_nil]
  rfl

theorem textAt_eq_find (segs : List Segment) (ts : ℚ) :
    textAt segs ts =
      match segs.find? (fun s => decide (s.start ≤ ts ∧ ts ≤ s.stop)) with
      | some s => s.text
      | none => placeholder_text ts := by
  induction segs with
  | nil => rfl
  | cons s rest ih =>
    by_cases h : s.start ≤ ts ∧ ts ≤ s.stop
    · rw [textAt, if_pos h, List.find?_cons_of_pos _ (by simpa using h)]
    · rw [textAt, if_neg h, List.find?_cons_of_neg _ (by simpa using h), ih]

theorem mem_text_candidates {qe : List ℝ} {q : String} {d : SessionData}
    {r : Result} :
    r ∈ text_candidates qe q d ↔
      ∃ p ∈ d.segments.zip d.text_embeddings,
        0.3 < cosine_similarity qe p.2 + keyword_bonus q p.1.text ∧
        r = { timestamp := p.1.start, text := p.1.text,
              score := min (cosine_similarity qe p.2 + keyword_bonus q p.1.text) 1,
              search_type := "text", frame_number := none, stop := p.1.stop } := by
  rw [text_candidates, List.mem_filterMap]
  constructor
  · rintro ⟨p, hp, hf⟩
    by_cases hc : 0.3 < cosine_similarity qe p.2 + keyword_bonus q p.1.text
    · rw [if_pos hc] at hf
      exact ⟨p, hp, hc, (Option.some.injEq _ _ ▸ hf).symm⟩
    · rw [if_neg hc] at hf
      exact absurd hf (Option.noConfusion)
  · rintro ⟨p, hp, hc, rfl⟩
    exact ⟨p, hp, by rw [if_pos hc]⟩

theorem mem_hybrid_text_candidates {qe : List ℝ} {q : String}
    {d : SessionData} {r : Result} :
    r ∈ hybrid_text_candidates qe q d ↔
      ∃ p ∈ d.segments.zip d.text_embeddings,
        0.3 < cosine_similarity qe p.2 + keyword_bonus q p.1.text ∧
        r = { timestamp := p.1.start, text := p.1.text,
              score := min (cosine_similarity qe p.2 + keyword_bonus q p.1.text) 1
                * 0.5,
              search_type := "text", frame_number := none, stop := p.1.stop } := by
  rw [hybrid_text_candidates, List.mem_filterMap]
  constructor
  · rintro ⟨p, hp, hf⟩
    by_cases hc : 0.3 < cosine_similarity qe p.2 + keyword_bonus q p.1.text
    · rw [if_pos hc] at hf
      exact ⟨p, hp, hc, (Option.some.injEq _ _ ▸ hf).symm⟩
    · rw [if_neg hc] at hf
      exact absurd hf (Option.noConfusion)
  · rintro ⟨p, hp, hc, rfl⟩
    exact ⟨p, hp, by rw [if_pos hc]⟩

theorem mem_hybrid_visual_candidates {qve : List ℝ} {d : SessionData}
    {r : Result} :
    r ∈ hybrid_visual_candidates qve d ↔
      ∃ vd ∈ d.visual_data,
        0.2 < cosine_similarity qve vd.embedding ∧
        r = { timestamp := vd.timestamp, text := textAt d.segments vd.timestamp,
              score := cosine_similarity qve vd.embedding * 0.5,
              search_type := "visual", frame_number := some vd.frame_number,
              stop := vd.timestamp + 1 } := by
  rw [hybrid_visual_candidates, List.mem_filterMap]
  constructor
  · rintro ⟨vd, hvd, hf⟩
    by_cases hc : 0.2 < cosine_similarity qve vd.embedding
    · rw [if_pos hc] at hf
      exact ⟨vd, hvd, hc, (Option.some.injEq _ _ ▸ hf).symm⟩
    · rw [if_neg hc] at hf
      exact absurd hf (Option.noConfusion)
  · rintro ⟨vd, hvd, hc, rfl⟩
    exact ⟨vd, hvd, by rw [if_pos hc]⟩

theorem simLE_trans : ∀ a b c : Frame × ℝ, simLE a b → simLE b c → simLE a c := by
  intro a b c hab hbc
  simp only [simLE, decide_eq_true_eq] at *
  exact le_trans hbc hab

theorem simLE_total : ∀ a b : Frame × ℝ, simLE a b || simLE b a := by
  intro a b
  simp only [simLE, Bool.or_eq_true, decide_eq_true_eq]
  exact le_total b.2 a.2

theorem mem_visual_matches {qve : List ℝ} {d : SessionData} {p : Frame × ℝ} :
    p ∈ visual_matches qve d ↔
      ∃ vd ∈ d.visual_data, p = (vd, cosine_similarity qve vd.embedding) := by
  rw [visual_matches, List.mem_mergeSort, List.mem_map]
  constructor
  · rintro ⟨vd, hvd, rfl⟩
    exact ⟨vd, hvd, rfl⟩
  · rintro ⟨vd, hvd, rfl⟩
    exact ⟨vd, hvd, rfl⟩

theorem visual_matches_sorted (qve : List ℝ) (d : SessionData) :
    (visual_matches qve d).Pairwise fun a b => b.2 ≤ a.2 := by
  rw [visual_matches]
  exact (List.sorted_mergeSort simLE_trans simLE_total _).imp
    fun h => by simpa [simLE] using h

theorem visual_matches_length (qve : List ℝ) (d : SessionData) :
    (visual_matches qve d).length = d.visual_data.length := by
  rw [visual_matches, List.length_mergeSort, List.length_map]

theorem mem_visual_candidates {k : ℕ} {qve : List ℝ} {d : SessionData}
    {r : Result} (h : r ∈ visual_candidates k qve d) :
    ∃ vd ∈ d.visual_data,
      r = visual_result d (vd, cosine_similarity qve vd.embedding) := by
  rw [visual_candidates] at h
  rcases List.mem_map.mp h with ⟨p, hp, rfl⟩
  rcases mem_visual_matches.mp (List.mem_of_mem_take hp) with ⟨vd, hvd, rfl⟩
  exact ⟨vd, hvd, rfl⟩

theorem visual_candidates_length (k : ℕ) (qve : List ℝ) (d : SessionData) :
    (visual_candidates k qve d).length = min (k * 2) d.visual_data.length := by
  rw [visual_candidates, List.length_map, List.length_take,
    visual_matches_length]

theorem visual_candidates_sorted (k : ℕ) (qve : List ℝ) (d : SessionData) :
    (visual_candidates k qve d).Pairwise fun a b => b.score ≤ a.score := by
  rw [visual_candidates]
  refine List.pairwise_map.mpr ?_
  exact List.Pairwise.sublist (List.take_sublist _ _)
    (visual_matches_sorted qve d)

theorem visual_candidates_complete {k : ℕ} {qve : List ℝ} {d : SessionData}
    (hlen : d.visual_data.length ≤ k * 2) :
    ∀ vd ∈ d.visual_data,
      visual_result d (vd, cosine_similarity qve vd.embedding) ∈
        visual_candidates k qve d := by
  intro vd hvd
  rw [visual_candidates, List.take_of_length_le
    (by rw [visual_matches_length]; exact hlen)]
  exact List.mem_map_of_mem _
    (mem_visual_matches.mpr ⟨vd, hvd, rfl⟩)

theorem mode_candidates_text {P : Providers} {q : SearchQuery}
    {d : SessionData} {qe : List ℝ} (ht : q.search_type = "text")
    (hp : P.get_text_embedding q.query = some qe) :
    mode_candidates P q d = text_candidates qe q.query d := by
  simp [mode_candidates, ht, hp]

theorem mode_candidates_text_fail {P : Providers} {q : SearchQuery}
    {d : SessionData} (ht : q.search_type = "text")
    (hp : P.get_text_embedding q.query = none) :
    mode_candidates P q d = [] := by
  simp [mode_candidates, ht, hp]

theorem mode_candidates_visual {P : Providers} {q : SearchQuery}
    {d : SessionData} {qve : List ℝ} (ht : q.search_type = "visual")
    (hp : P.encode_text_with_openclip q.query = some qve) :
    mode_candidates P q d = visual_candidates q.top_k qve d := by
  have : ¬ q.search_type = "text" := by simp [ht]
  simp [mode_candidates, this, ht, hp]

theorem mode_candidates_visual_fail {P : Providers} {q : SearchQuery}
    {d : SessionData} (ht : q.search_type = "visual")
    (hp : P.encode_text_with_openclip q.query = none) :
    mode_candidates P q d = [] := by
  have : ¬ q.search_type = "text" := by simp [ht]
  simp [mode_candidates, this, ht, hp]

theorem mode_candidates_hybrid {P : Providers} {q : SearchQuery}
    {d : SessionData} {qe qve : List ℝ}
    (h1 : q.search_type ≠ "text") (h2 : q.search_type ≠ "visual")
    (hp : P.get_text_embedding q.query = some qe)
    (hv : P.encode_text_with_openclip q.query = some qve) :
    mode_candidates P q d =
      hybrid_text_candidates qe q.query d ++ hybrid_visual_candidates qve d := by
  simp [mode_candidates, h1, h2, hp, hv]

theorem mode_candidates_hybrid_fail {P : Providers} {q : SearchQuery}
    {d : SessionData}
    (h1 : q.search_type ≠ "text") (h2 : q.search_type ≠ "visual")
    (hp : P.get_text_embedding q.query = none)
    (hv : P.encode_text_with_openclip q.query = none) :
    mode_candidates P q d = [] := by
  simp [mode_candidates, h1, h2, hp, hv]

theorem search_video_some {P : Providers} {store : String → Option SessionData}
    {q : SearchQuery} {d : SessionData} (hd : store q.video_id = some d) :
    search_video P store q = .ok
      { results := (rank_results (mode_candidates P q d)).take q.top_k,
        total_matches := (rank_results (mode_candidates P q d)).length,
        search_type := q.search_type } := by
  simp [search_video, hd]

theorem search_video_none {P : Providers} {store : String → Option SessionData}
    {q : SearchQuery} (hd : store q.video_id = none) :
    search_video P store q = .error .notReady := by
  simp [search_video, hd]

theorem search_video_empty {P : Providers} {store : String → Option SessionData}
    {q : SearchQuery} {d : SessionData} (hd : store q.video_id = some d)
    (hc : mode_candidates P q d = []) :
    search_video P store q = .ok ⟨[], 0, q.search_type⟩ := by
  rw [search_video_some hd, hc, rank_results_nil]
  simp

theorem text_candidates_score_range {qe : List ℝ} {q : String}
    {d : SessionData} {r : Result} (h : r ∈ text_candidates qe q d) :
    0.3 < r.score ∧ r.score ≤ 1 := by
  rcases mem_text_candidates.mp h with ⟨p, hp, hc, rfl⟩
  exact ⟨lt_min hc (by norm_num), min_le_right _ _⟩

/-! ### Claim theorems -/

/-- C8: `cosine_similarity` maps two equal-length vectors into `[-1, 1]`,
returns exactly `0.0` whenever either vector has zero norm, and returns
`1.0` on any non-zero vector paired with itself. -/
theorem C8_cosine_similarity_spec :
    (∀ a b : List ℝ, a.length = b.length →
      -1 ≤ cosine_similarity a b ∧ cosine_similarity a b ≤ 1) ∧
    (∀ a b : List ℝ, a.length = b.length →
      norm2 a = 0 ∨ norm2 b = 0 → cosine_similarity a b = 0) ∧
    (∀ v : List ℝ, (∃ x ∈ v, x ≠ 0) → cosine_similarity v v = 1) :=
  ⟨fun a b _ => cosine_bounds a b, fun _ _ _ h => cosine_zero_of_norm h,
    fun _ h => cosine_self h⟩

/-- Witness for C8: the bound at `[3,4]` and `[4,3]`, the zero-norm guard
at the zero vector, and self-similarity `1` at `[3,4]`. -/
theorem C8_witness :
    (-1 ≤ cosine_similarity [3, 4] [4, 3] ∧
      cosine_similarity [3, 4] [4, 3] ≤ 1) ∧
    cosine_similarity [0, 0] [1, 2] = 0 ∧
    cosine_similarity [3, 4] [3, 4] = 1 := by
  refine ⟨C8_cosine_similarity_spec.1 [3, 4] [4, 3] rfl,
    C8_cosine_similarity_spec.2.1 [0, 0] [1, 2] rfl (Or.inl ?_),
    C8_cosine_similarity_spec.2.2 [3, 4] ⟨3, by simp, by norm_num⟩⟩
  rw [norm2_eq_zero_iff]
  show dotp [(0 : ℝ), 0] [0, 0] = 0
  simp [dotp]

/-- C1: text mode scores each (segment, embedding) pair by cosine
similarity plus a `0.3` keyword bonus for a lowercased substring match,
stores the combined score capped at `1.0`, includes a pair iff the
combined score strictly exceeds `0.3`, and consequently every score of a
text-mode response lies in `(0.3, 1]`. -/
theorem C1_text_mode_scoring :
    (∀ qe q d (r : Result), r ∈ text_candidates qe q d →
      ∃ p ∈ d.segments.zip d.text_embeddings,
        0.3 < cosine_similarity qe p.2 + keyword_bonus q p.1.text ∧
        r.timestamp = p.1.start ∧ r.text = p.1.text ∧
        r.score =
          min (cosine_similarity qe p.2 + keyword_bonus q p.1.text) 1) ∧
    (∀ qe q d p, p ∈ d.segments.zip d.text_embeddings →
      0.3 < cosine_similarity qe p.2 + keyword_bonus q p.1.text →
      ({ timestamp := p.1.start, text := p.1.text,
         score := min (cosine_similarity qe p.2 + keyword_bonus q p.1.text) 1,
         search_type := "text", frame_number := none,
         stop := p.1.stop } : Result) ∈ text_candidates qe q d) ∧
    (∀ qe q d (r : Result), r ∈ text_candidates qe q d →
      0.3 < r.score ∧ r.score ≤ 1) ∧
    (∀ P store q d resp (r : Result), q.search_type = "text" →
      store q.video_id = some d → search_video P store q = .ok resp →
      r ∈ resp.results → 0.3 < r.score ∧ r.score ≤ 1) := by
  refine ⟨?_, ?_, ?_, ?_⟩
  · intro qe q d r h
    rcases mem_text_candidates.mp h with ⟨p, hp, hc, rfl⟩
    exact ⟨p, hp, hc, rfl, rfl, rfl⟩
  · intro qe q d p hp hc
    exact mem_text_candidates.mpr ⟨p, hp, hc, rfl⟩
  · intro qe q d r h
    exact text_candidates_score_range h
  · intro P store q d resp r ht hd hok hr
    rw [search_video_some hd] at hok
    cases hok
    have hmem : r ∈ mode_candidates P q d :=
      mem_rank_results (List.mem_of_mem_take hr)
    cases hp : P.get_text_embedding q.query with
    | none =>
      rw [mode_candidates_text_fail ht hp] at hmem
      simp at hmem
    | some qe =>
      rw [mode_candidates_text ht hp] at hmem
      exact text_candidates_score_range hmem

/-- Witness for C1: the spec's scenario, query `"cats"` against the
segment `"cats are great"` with matching unit embeddings; the substring
bonus fires and the segment is included with capped score `1`. -/
theorem C1_witness :
    ((segCats, ([1, 0] : List ℝ)) ∈
      sessionCats.segments.zip sessionCats.text_embeddings) ∧
    0.3 < cosine_similarity [1, 0] [1, 0] + keyword_bonus "cats" segCats.text ∧
    ({ timestamp := segCats.start, text := segCats.text,
       score := min
         (cosine_similarity [1, 0] [1, 0] + keyword_bonus "cats" segCats.text) 1,
       search_type := "text", frame_number := none,
       stop := segCats.stop } : Result) ∈
      text_candidates [1, 0] "cats" sessionCats := by
  have hmem : (segCats, ([1, 0] : List ℝ)) ∈
      sessionCats.segments.zip sessionCats.text_embeddings := by
    simp [sessionCats]
  have hcos : cosine_similarity [(1 : ℝ), 0] [1, 0] = 1 :=
    cosine_self ⟨1, by simp, one_ne_zero⟩
  have hbonus : keyword_bonus "cats" segCats.text = 0.3 := by
    rw [keyword_bonus, if_pos]
    show substrB (lower "cats") (lower segCats.text) = true
    rfl
  have hgt : 0.3 <
      cosine_similarity [(1 : ℝ), 0] [1, 0] + keyword_bonus "cats" segCats.text := by
    rw [hcos, hbonus]
    norm_num
  exact ⟨hmem, hgt,
    C1_text_mode_scoring.2.1 [1, 0] "cats" sessionCats (segCats, [1, 0]) hmem hgt⟩

/-- General unfolding of the hybrid (`else`) branch of the dispatch. -/
theorem mode_candidates_hybrid_general {P : Providers} {q : SearchQuery}
    {d : SessionData}
    (h1 : q.search_type ≠ "text") (h2 : q.search_type ≠ "visual") :
    mode_candidates P q d =
      (match P.get_text_embedding q.query with
       | none => []
       | some qe => hybrid_text_candidates qe q.query d) ++
      (match P.encode_text_with_openclip q.query with
       | none => []
       | some qve => hybrid_visual_candidates qve d) := by
  simp [mode_candidates, h1, h2]

theorem hybrid_text_search_type {qe : List ℝ} {q : String} {d : SessionData}
    {r : Result} (h : r ∈ hybrid_text_candidates qe q d) :
    r.search_type = "text" := by
  rcases mem_hybrid_text_candidates.mp h with ⟨p, _, _, rfl⟩
  rfl

theorem hybrid_visual_score_range {qve : List ℝ} {d : SessionData}
    {r : Result} (h : r ∈ hybrid_visual_candidates qve d) :
    0.1 < r.score ∧ r.score ≤ 0.5 := by
  rcases mem_hybrid_visual_candidates.mp h with ⟨vd, _, hc, rfl⟩
  have hub := (cosine_bounds qve vd.embedding).2
  constructor
  · show (0.1 : ℝ) < cosine_similarity qve vd.embedding * 0.5
    linarith
  · show cosine_similarity qve vd.embedding * 0.5 ≤ 0.5
    linarith

/-- `search_step` on a present session, fully unfolded. -/
theorem search_step_some {P : Providers} {st : ServerState} {now : ℕ}
    {q : SearchQuery} {d : SessionData} (hd : st.sessions q.video_id = some d) :
    search_step P st now q = .ok
      (⟨(rank_results (mode_candidates P q d)).take q.top_k,
        (rank_results (mode_candidates P q d)).length, q.search_type⟩,
       ⟨st.sessions, fun v =>
          if v = q.video_id then
            st.search_history v ++
              [⟨q.query, q.search_type, now,
                (rank_results (mode_candidates P q d)).length,
                top_score_of (rank_results (mode_candidates P q d))⟩]
          else st.search_history v⟩) := by
  simp [search_step, hd]

/-- C2: in every mode the final list is the candidates sorted by score
descending, deduplicated to the dominant candidate of each 0.1 s bucket
(the survivor's score bounds every same-bucket candidate; exact ties keep
the first-encountered candidate, as the deduplicated list is a sublist of
the stable descending sort), re-sorted, and truncated to `top_k`; hence a
response is non-increasing in score, has at most one result per bucket,
and at most `top_k` entries. -/
theorem C2_rank_dedup_truncate :
    (∀ (k : ℕ) (rs : List Result),
      ((rank_results rs).take k).Pairwise fun a b => b.score ≤ a.score) ∧
    (∀ (k : ℕ) (rs : List Result),
      ((rank_results rs).take k).Pairwise
        fun a b => bucket a.timestamp ≠ bucket b.timestamp) ∧
    (∀ (k : ℕ) (rs : List Result), ((rank_results rs).take k).length ≤ k) ∧
    (∀ (k : ℕ) (rs : List Result) (r : Result),
      r ∈ (rank_results rs).take k → r ∈ rs) ∧
    (∀ (k : ℕ) (rs : List Result) (r : Result),
      r ∈ (rank_results rs).take k →
      ∀ r' ∈ rs, bucket r'.timestamp = bucket r.timestamp →
        r'.score ≤ r.score) ∧
    (∀ rs : List Result, List.Sublist (rank_results rs) (score_desc rs)) ∧
    (∀ P store q d resp, store q.video_id = some d →
      search_video P store q = .ok resp →
      resp.results = (rank_results (mode_candidates P q d)).take q.top_k ∧
      resp.results.length ≤ q.top_k) := by
  refine ⟨?_, ?_, ?_, ?_, ?_, rank_results_sublist_sorted, ?_⟩
  · intro k rs
    exact List.Pairwise.sublist (List.take_sublist _ _) (rank_results_sorted rs)
  · intro k rs
    exact List.Pairwise.sublist (List.take_sublist _ _)
      (rank_results_bucket_pairwise rs)
  · intro k rs
    exact List.length_take_le _ _
  · intro k rs r h
    exact mem_rank_results (List.mem_of_mem_take h)
  · intro k rs r h
    exact rank_results_max (List.mem_of_mem_take h)
  · intro P store q d resp hd hok
    rw [search_video_some hd] at hok
    cases hok
    exact ⟨rfl, List.length_take_le _ _⟩

/-- Witness for C2 at the endpoint on a concrete store and query. -/
theorem C2_witness :
    ∃ resp, search_video providers0 store0 ⟨"v", "cats", "text", 7⟩ = .ok resp ∧
      resp.results.length ≤ 7 := by
  have hd : store0 ((⟨"v", "cats", "text", 7⟩ : SearchQuery)).video_id =
      some emptySession := rfl
  refine ⟨_, search_video_some hd, ?_⟩
  exact (C2_rank_dedup_truncate.2.2.2.2.2.2 providers0 store0 _ emptySession _ hd
    (search_video_some hd)).2

/-- C4: pure visual mode applies no similarity threshold: every frame is
scored by raw cosine similarity (no calibration), frames are ranked by
similarity descending, and the candidate list is that ranking truncated
to `2 * top_k`; a frame is excluded only by the truncation. -/
theorem C4_pure_visual_no_threshold :
    (∀ (k : ℕ) (qve : List ℝ) (d : SessionData),
      (visual_candidates k qve d).length = min (k * 2) d.visual_data.length) ∧
    (∀ (k : ℕ) (qve : List ℝ) (d : SessionData),
      (visual_candidates k qve d).Pairwise fun a b => b.score ≤ a.score) ∧
    (∀ (k : ℕ) (qve : List ℝ) (d : SessionData),
      d.visual_data.length ≤ k * 2 →
      ∀ vd ∈ d.visual_data,
        visual_result d (vd, cosine_similarity qve vd.embedding) ∈
          visual_candidates k qve d) ∧
    (∀ (k : ℕ) (qve : List ℝ) (d : SessionData) (r : Result),
      r ∈ visual_candidates k qve d →
      ∃ vd ∈ d.visual_data,
        r.score = cosine_similarity qve vd.embedding ∧
        r.timestamp = vd.timestamp ∧
        r.frame_number = some vd.frame_number) := by
  refine ⟨visual_candidates_length, visual_candidates_sorted,
    fun k qve d h => visual_candidates_complete h, ?_⟩
  intro k qve d r h
  rcases mem_visual_candidates h with ⟨vd, hvd, rfl⟩
  exact ⟨vd, hvd, rfl, rfl, rfl⟩

/-- Witness for C4: three frames, `top_k = 2`; all three frames enter the
candidate list (3 ≤ 4) and its length is `min 4 3`. -/
theorem C4_witness :
    (sessionFrames.visual_data.length ≤ 2 * 2) ∧
    (visual_result sessionFrames
        (frameB, cosine_similarity [5, 0] frameB.embedding) ∈
      visual_candidates 2 [5, 0] sessionFrames) ∧
    (visual_candidates 2 [5, 0] sessionFrames).length =
      min (2 * 2) sessionFrames.visual_data.length := by
  have hlen : sessionFrames.visual_data.length ≤ 2 * 2 := by
    simp [sessionFrames]
  exact ⟨hlen,
    C4_pure_visual_no_threshold.2.2.1 2 [5, 0] sessionFrames hlen frameB
      (by simp [sessionFrames]),
    C4_pure_visual_no_threshold.1 2 [5, 0] sessionFrames⟩

/-- C5: every visual-mode and hybrid-visual result displays the text of
the first segment (in session order) whose `[start, end]` interval
contains the frame timestamp, and the synthesized placeholder referencing
the timestamp when no segment contains it. -/
theorem C5_visual_text_lookup :
    (∀ (k : ℕ) (qve : List ℝ) (d : SessionData) (r : Result),
      r ∈ visual_candidates k qve d →
      r.text = textAt d.segments r.timestamp) ∧
    (∀ (qve : List ℝ) (d : SessionData) (r : Result),
      r ∈ hybrid_visual_candidates qve d →
      r.text = textAt d.segments r.timestamp) ∧
    (∀ (segs : List Segment) (ts : ℚ),
      textAt segs ts =
        match segs.find? (fun s => decide (s.start ≤ ts ∧ ts ≤ s.stop)) with
        | some s => s.text
        | none => placeholder_text ts) ∧
    (∀ (segs : List Segment) (ts : ℚ),
      segs.find? (fun s => decide (s.start ≤ ts ∧ ts ≤ s.stop)) = none →
      textAt segs ts = placeholder_text ts) := by
  refine ⟨?_, ?_, textAt_eq_find, ?_⟩
  · intro k qve d r h
    rcases mem_visual_candidates h with ⟨vd, hvd, rfl⟩
    rfl
  · intro qve d r h
    rcases mem_hybrid_visual_candidates.mp h with ⟨vd, hvd, hc, rfl⟩
    rfl
  · intro segs ts hnone
    rw [textAt_eq_find, hnone]

/-- Witness for C5: a timestamp inside the single segment displays its
text, and a timestamp outside every segment displays the placeholder. -/
theorem C5_witness :
    textAt [segCats] 3 = segCats.text ∧
    textAt [segCats] 10 = placeholder_text 10 := by
  constructor
  · rw [C5_visual_text_lookup.2.2.1 [segCats] 3]
    rfl
  · exact C5_visual_text_lookup.2.2.2 [segCats] 10 rfl

theorem dotp_5043 : dotp [(5 : ℝ), 0] [4, 3] = 20 := by
  simp [dotp]
  norm_num

theorem norm2_50 : norm2 [(5 : ℝ), 0] = 5 := by
  have h : dotp [(5 : ℝ), 0] [5, 0] = 25 := by
    simp [dotp]
    norm_num
  rw [norm2, h, show (25 : ℝ) = 5 ^ 2 by norm_num,
    Real.sqrt_sq (by norm_num : (0 : ℝ) ≤ 5)]

theorem norm2_43 : norm2 [(4 : ℝ), 3] = 5 := by
  have h : dotp [(4 : ℝ), 3] [4, 3] = 25 := by
    simp [dotp]
    norm_num
  rw [norm2, h, show (25 : ℝ) = 5 ^ 2 by norm_num,
    Real.sqrt_sq (by norm_num : (0 : ℝ) ≤ 5)]

theorem cos_5043 : cosine_similarity [(5 : ℝ), 0] [4, 3] = 0.8 := by
  rw [cosine_similarity, if_neg (by rw [norm2_50, norm2_43]; norm_num),
    dotp_5043, norm2_50, norm2_43]
  norm_num

/-- C3: hybrid mode scores text and visual candidates independently,
weighting the capped text combined score and the raw visual similarity
each by `0.5`; a visual candidate enters iff its raw similarity exceeds
`0.2` (text keeps the `> 0.3` combined filter) and the two lists are
concatenated before ranking; consequently every hybrid visual score lies
in `(0.1, 0.5]`. -/
theorem C3_hybrid_weighting :
    (∀ (qve : List ℝ) (d : SessionData) (vd : Frame), vd ∈ d.visual_data →
      0.2 < cosine_similarity qve vd.embedding →
      ({ timestamp := vd.timestamp, text := textAt d.segments vd.timestamp,
         score := cosine_similarity qve vd.embedding * 0.5,
         search_type := "visual", frame_number := some vd.frame_number,
         stop := vd.timestamp + 1 } : Result) ∈
        hybrid_visual_candidates qve d) ∧
    (∀ (qve : List ℝ) (d : SessionData) (r : Result),
      r ∈ hybrid_visual_candidates qve d →
      ∃ vd ∈ d.visual_data, 0.2 < cosine_similarity qve vd.embedding ∧
        r.score = cosine_similarity qve vd.embedding * 0.5) ∧
    (∀ (qe : List ℝ) (q : String) (d : SessionData) (r : Result),
      r ∈ hybrid_text_candidates qe q d →
      ∃ p ∈ d.segments.zip d.text_embeddings,
        0.3 < cosine_similarity qe p.2 + keyword_bonus q p.1.text ∧
        r.score =
          min (cosine_similarity qe p.2 + keyword_bonus q p.1.text) 1 * 0.5) ∧
    (∀ P (q : SearchQuery) d (qe qve : List ℝ),
      q.search_type ≠ "text" → q.search_type ≠ "visual" →
      P.get_text_embedding q.query = some qe →
      P.encode_text_with_openclip q.query = some qve →
      mode_candidates P q d =
        hybrid_text_candidates qe q.query d ++
          hybrid_visual_candidates qve d) ∧
    (∀ (qve : List ℝ) (d : SessionData) (r : Result),
      r ∈ hybrid_visual_candidates qve d → 0.1 < r.score ∧ r.score ≤ 0.5) ∧
    (∀ P store (q : SearchQuery) d resp (r : Result),
      q.search_type ≠ "text" → q.search_type ≠ "visual" →
      store q.video_id = some d → search_video P store q = .ok resp →
      r ∈ resp.results → r.search_type = "visual" →
      0.1 < r.score ∧ r.score ≤ 0.5) := by
  refine ⟨?_, ?_, ?_, ?_, fun qve d r h => hybrid_visual_score_range h, ?_⟩
  · intro qve d vd hvd hc
    exact mem_hybrid_visual_candidates.mpr ⟨vd, hvd, hc, rfl⟩
  · intro qve d r h
    rcases mem_hybrid_visual_candidates.mp h with ⟨vd, hvd, hc, rfl⟩
    exact ⟨vd, hvd, hc, rfl⟩
  · intro qe q d r h
    rcases mem_hybrid_text_candidates.mp h with ⟨p, hp, hc, rfl⟩
    exact ⟨p, hp, hc, rfl⟩
  · intro P q d qe qve h1 h2 hp hv
    rw [mode_candidates_hybrid_general h1 h2, hp, hv]
  · intro P store q d resp r h1 h2 hd hok hr hst
    rw [search_video_some hd] at hok
    cases hok
    have hmem : r ∈ mode_candidates P q d :=
      mem_rank_results (List.mem_of_mem_take hr)
    rw [mode_candidates_hybrid_general h1 h2] at hmem
    rcases List.mem_append.mp hmem with hl | hrv
    · cases hp : P.get_text_embedding q.query with
      | none =>
        rw [hp] at hl
        simp at hl
      | some qe =>
        rw [hp] at hl
        exact absurd (hybrid_text_search_type hl) (by rw [hst]; decide)
    · cases hv : P.encode_text_with_openclip q.query with
      | none =>
        rw [hv] at hrv
        simp at hrv
      | some qve =>
        rw [hv] at hrv
        exact hybrid_visual_score_range hrv

/-- Witness for C3: the frame with similarity `0.8` against query
embedding `[5, 0]` passes the `> 0.2` filter and enters the hybrid visual
candidate list with score `0.8 * 0.5`. -/
theorem C3_witness :
    (frameA ∈ sessionFrames.visual_data) ∧
    (0.2 < cosine_similarity [5, 0] frameA.embedding) ∧
    ({ timestamp := frameA.timestamp,
       text := textAt sessionFrames.segments frameA.timestamp,
       score := cosine_similarity [5, 0] frameA.embedding * 0.5,
       search_type := "visual", frame_number := some frameA.frame_number,
       stop := frameA.timestamp + 1 } : Result) ∈
      hybrid_visual_candidates [5, 0] sessionFrames := by
  have hvd : frameA ∈ sessionFrames.visual_data := by
    simp [sessionFrames]
  have hc : (0.2 : ℝ) < cosine_similarity [5, 0] frameA.embedding := by
    show (0.2 : ℝ) < cosine_similarity [5, 0] [4, 3]
    rw [cos_5043]
    norm_num
  exact ⟨hvd, hc, C3_hybrid_weighting.1 [5, 0] sessionFrames frameA hvd hc⟩

/-- C6 (amended): search fails with the not-ready error exactly when the
session's processed data is absent (session missing or not completed);
whenever the data is present the request succeeds — the query string is
never validated, so an empty query is not rejected. -/
theorem C6_preconditions :
    (∀ P store (q : SearchQuery), store q.video_id = none →
      search_video P store q = .error .notReady) ∧
    (∀ P store (q : SearchQuery) d, store q.video_id = some d →
      ∃ resp, search_video P store q = .ok resp) :=
  ⟨fun _ _ _ h => search_video_none h,
    fun _ _ _ _ h => ⟨_, search_video_some h⟩⟩

/-- Counterexample to C6 as stated: an empty `query_text` against a
completed session is not rejected — there is no `InvalidQueryError` check
anywhere in `search_video`, and the request returns an ordinary empty
response. -/
theorem C6_counterexample :
    search_video providers0 store0 ⟨"v", "", "text", 10⟩ =
      .ok ⟨[], 0, "text"⟩ := by
  have hd : store0 ((⟨"v", "", "text", 10⟩ : SearchQuery)).video_id =
      some emptySession := rfl
  have hc : mode_candidates providers0 ⟨"v", "", "text", 10⟩ emptySession = [] := by
    rw [mode_candidates_text rfl rfl]
    rfl
  exact search_video_empty hd hc

/-- Witness for C6: a missing session is rejected with the not-ready
error, and a present one succeeds. -/
theorem C6_witness :
    search_video providers0 store0 ⟨"w", "cats", "text", 10⟩ =
      .error .notReady ∧
    ∃ resp, search_video providers0 store0 ⟨"v", "cats", "text", 10⟩ =
      .ok resp :=
  ⟨C6_preconditions.1 providers0 store0 ⟨"w", "cats", "text", 10⟩ rfl,
    C6_preconditions.2 providers0 store0 ⟨"v", "cats", "text", 10⟩
      emptySession rfl⟩

/-- C7 (amended): a raised embedding-provider call is caught and the
affected mode contributes an empty candidate list, the request still
returning a (possibly empty) successful response — including when every
mode of the request fails, in which case the response is empty rather
than an error. -/
theorem C7_provider_failure :
    (∀ P store (q : SearchQuery) d, q.search_type = "text" →
      store q.video_id = some d → P.get_text_embedding q.query = none →
      search_video P store q = .ok ⟨[], 0, q.search_type⟩) ∧
    (∀ P store (q : SearchQuery) d, q.search_type = "visual" →
      store q.video_id = some d →
      P.encode_text_with_openclip q.query = none →
      search_video P store q = .ok ⟨[], 0, q.search_type⟩) ∧
    (∀ P (q : SearchQuery) d (qve : List ℝ),
      q.search_type ≠ "text" → q.search_type ≠ "visual" →
      P.get_text_embedding q.query = none →
      P.encode_text_with_openclip q.query = some qve →
      mode_candidates P q d = hybrid_visual_candidates qve d) ∧
    (∀ P (q : SearchQuery) d (qe : List ℝ),
      q.search_type ≠ "text" → q.search_type ≠ "visual" →
      P.get_text_embedding q.query = some qe →
      P.encode_text_with_openclip q.query = none →
      mode_candidates P q d = hybrid_text_candidates qe q.query d) ∧
    (∀ P store (q : SearchQuery) d,
      q.search_type ≠ "text" → q.search_type ≠ "visual" →
      store q.video_id = some d → P.get_text_embedding q.query = none →
      P.encode_text_with_openclip q.query = none →
      search_video P store q = .ok ⟨[], 0, q.search_type⟩) := by
  refine ⟨?_, ?_, ?_, ?_, ?_⟩
  · intro P store q d ht hd hp
    exact search_video_empty hd (mode_candidates_text_fail ht hp)
  · intro P store q d ht hd hp
    exact search_video_empty hd (mode_candidates_visual_fail ht hp)
  · intro P q d qve h1 h2 hp hv
    rw [mode_candidates_hybrid_general h1 h2, hp, hv]
    simp
  · intro P q d qe h1 h2 hp hv
    rw [mode_candidates_hybrid_general h1 h2, hp, hv]
    simp
  · intro P store q d h1 h2 hd hp hv
    exact search_video_empty hd (mode_candidates_hybrid_fail h1 h2 hp hv)

/-- Counterexample to C7 as stated: a hybrid request in which every
provider call raises does not fail; it returns the empty OK response. -/
theorem C7_counterexample :
    search_video providersFail store0 ⟨"v", "x", "hybrid", 10⟩ =
      .ok ⟨[], 0, "hybrid"⟩ := by
  have hd : store0 ((⟨"v", "x", "hybrid", 10⟩ : SearchQuery)).video_id =
      some emptySession := rfl
  exact search_video_empty hd
    (mode_candidates_hybrid_fail (by decide) (by decide) rfl rfl)

/-- Witness for C7 at concrete failing providers. -/
theorem C7_witness :
    search_video providersFail store0 ⟨"v", "q", "hybrid", 3⟩ =
      .ok ⟨[], 0, "hybrid"⟩ :=
  C7_provider_failure.2.2.2.2 providersFail store0 ⟨"v", "q", "hybrid", 3⟩
    emptySession (by decide) (by decide) rfl rfl rfl

/-- C9: search is deterministic — the same query run twice against the
same completed, unmodified session returns identical responses, the only
state change being the two appended history entries (which differ at most
in their wall-clock field). -/
theorem C9_idempotent (P : Providers) (st : ServerState) (now1 now2 : ℕ)
    (q : SearchQuery) (d : SessionData)
    (hd : st.sessions q.video_id = some d) :
    ∃ r1 s1 r2 s2 e1 e2,
      search_step P st now1 q = .ok (r1, s1) ∧
      search_step P s1 now2 q = .ok (r2, s2) ∧
      r2 = r1 ∧
      s1.sessions = st.sessions ∧ s2.sessions = st.sessions ∧
      s1.search_history q.video_id = st.search_history q.video_id ++ [e1] ∧
      s2.search_history q.video_id =
        st.search_history q.video_id ++ [e1, e2] ∧
      (∀ v, v ≠ q.video_id → s2.search_history v = st.search_history v) ∧
      e2.query = e1.query ∧ e2.search_type = e1.search_type ∧
      e2.results_count = e1.results_count ∧ e2.top_score = e1.top_score := by
  have h1 : search_step P st now1 q = Except.ok
      (⟨(rank_results (mode_candidates P q d)).take q.top_k,
        (rank_results (mode_candidates P q d)).length, q.search_type⟩,
       ⟨st.sessions, fun v =>
          if v = q.video_id then
            st.search_history v ++
              [⟨q.query, q.search_type, now1,
                (rank_results (mode_candidates P q d)).length,
                top_score_of (rank_results (mode_candidates P q d))⟩]
          else st.search_history v⟩) := search_step_some hd
  have hd1 : (⟨st.sessions, fun v =>
      if v = q.video_id then
        st.search_history v ++
          [⟨q.query, q.search_type, now1,
            (rank_results (mode_candidates P q d)).length,
            top_score_of (rank_results (mode_candidates P q d))⟩]
      else st.search_history v⟩ : ServerState).sessions q.video_id =
      some d := hd
  have h2 : search_step P
      (⟨st.sessions, fun v =>
        if v = q.video_id then
          st.search_history v ++
            [⟨q.query, q.search_type, now1,
              (rank_results (mode_candidates P q d)).length,
              top_score_of (rank_results (mode_candidates P q d))⟩]
        else st.search_history v⟩ : ServerState) now2 q = _ :=
    search_step_some hd1
  refine ⟨_, _, _, _,
    ⟨q.query, q.search_type, now1,
      (rank_results (mode_candidates P q d)).length,
      top_score_of (rank_results (mode_candidates P q d))⟩,
    ⟨q.query, q.search_type, now2,
      (rank_results (mode_candidates P q d)).length,
      top_score_of (rank_results (mode_candidates P q d))⟩,
    h1, h2, rfl, rfl, rfl, ?_, ?_, ?_, rfl, rfl, rfl, rfl⟩
  · simp
  · simp
  · intro v hv
    simp [hv]

/-- Witness for C9 on a concrete state: the first of the two runs
produced by the idempotence theorem succeeds. -/
theorem C9_witness :
    (search_step providers0 state0 0 ⟨"v", "cats", "text", 10⟩).isOk = true := by
  obtain ⟨r1, s1, r2, s2, e1, e2, h1, -⟩ :=
    C9_idempotent providers0 state0 0 1 ⟨"v", "cats", "text", 10⟩
      emptySession rfl
  rw [h1]
  rfl

/-- C10: any `search_type` other than `"text"` and `"visual"` — the
default `"hybrid"` but also arbitrary strings — executes hybrid search
and is never rejected: the response equals the `"hybrid"` response except
for the echoed `search_type` field. -/
theorem C10_unrecognized_runs_hybrid (P : Providers)
    (store : String → Option SessionData) (q : SearchQuery) (d : SessionData)
    (h1 : q.search_type ≠ "text") (h2 : q.search_type ≠ "visual")
    (hd : store q.video_id = some d) :
    ∃ resp, search_video P store q = .ok resp ∧
      search_video P store { q with search_type := "hybrid" } =
        .ok { resp with search_type := "hybrid" } := by
  refine ⟨_, search_video_some hd, ?_⟩
  have hd' : store ({ q with search_type := "hybrid" } : SearchQuery).video_id =
      some d := hd
  rw [search_video_some hd']
  have hmc : mode_candidates P { q with search_type := "hybrid" } d =
      mode_candidates P q d := by
    rw [mode_candidates_hybrid_general h1 h2,
      mode_candidates_hybrid_general
        (show ({ q with search_type := "hybrid" } : SearchQuery).search_type ≠
          "text" by simp)
        (show ({ q with search_type := "hybrid" } : SearchQuery).search_type ≠
          "visual" by simp)]
  rw [hmc]

/-- Witness for C10: the unrecognized `search_type` `"banana"` is served
by the hybrid branch against a concrete store. -/
theorem C10_witness :
    ∃ resp,
      search_video providers0 store0 ⟨"v", "cats", "banana", 10⟩ = .ok resp ∧
      search_video providers0 store0 ⟨"v", "cats", "hybrid", 10⟩ =
        .ok { resp with search_type := "hybrid" } :=
  C10_unrecognized_runs_hybrid providers0 store0 ⟨"v", "cats", "banana", 10⟩
    emptySession (by decide) (by decide) rfl

end ClipFinder
